import Mathlib

/-!
Verification of the hydrogen-bond decomposition analysis
(`src/water/analysis/hbond_decomposition.py`).

The analysis operates on an atomic configuration loaded by an external
structure reader (ASE).  The code only ever queries that collaborator
through `len(atoms)`, `atoms.get_distance(i, j, mic=...)` and
`atoms.get_angle(a, b, c, mic=...)`, so we embed a configuration as an
abstract oracle exposing exactly these: an atom count, a pairwise
distance function and a three-point angle function (in degrees), each
taking the minimum-image flag.  Geometric quantities are modelled as
rationals; the claims under study only compare them against cutoffs.
-/

/-- Abstract atomic configuration: atom count plus the distance and angle
primitives of the external structure reader.  The final `Bool` argument of
each primitive is the minimum-image-convention flag (`mic=` in the code). -/
structure Atoms where
  n_atoms : Nat
  get_distance : Nat → Nat → Bool → ℚ
  get_angle : Nat → Nat → Nat → Bool → ℚ

/-- Water molecule record, mirroring the dict `{'O': base, 'H': [base+1, base+2]}`
built by `build_water_molecules`. -/
structure WaterMolecule where
  O : Nat
  H : List Nat
deriving DecidableEq, Repr

/-- Hydrogen bond tuple `(acceptor oxygen index, donor oxygen index, hydrogen index)`. -/
abbrev HBond := Nat × Nat × Nat

/-- Error raised when a putative water molecule fails the O-H distance sanity
check during construction.  In the Python code this is an `assert` failure
(the spec's error taxonomy names it `MalformedMoleculeError`); it carries the
index of the offending molecule. -/
inductive MalformedMoleculeError where
  | malformed (i : Nat) : MalformedMoleculeError
deriving DecidableEq, Repr

/-- Sanity predicate checked by the two assertions in `build_water_molecules`:
both O-H distances of molecule `i` (atoms `3i`, `3i+1`, `3i+2`) are below 1.5.
The Python calls `atoms.get_distance(base, base+1)` without `mic=True`, hence
the `false` flag. -/
def moleculeOK (atoms : Atoms) (i : Nat) : Prop :=
  atoms.get_distance (3 * i) (3 * i + 1) false < mkRat 3 2 ∧
  atoms.get_distance (3 * i) (3 * i + 2) false < mkRat 3 2

instance (atoms : Atoms) (i : Nat) : Decidable (moleculeOK atoms i) := by
  unfold moleculeOK; infer_instance

lemma sanity_threshold_eq : (mkRat 3 2 : ℚ) = 3 / 2 := by
  norm_num [Rat.mkRat_eq_div]

/-- The molecule list built by consecutive grouping: molecule `i` owns atom
indices `{3i, 3i+1, 3i+2}` as `{O, H, H}`. -/
def buildList (n : Nat) : List WaterMolecule :=
  (List.range n).map fun i => ⟨3 * i, [3 * i + 1, 3 * i + 2]⟩

/-- Translation of `build_water_molecules`.  The Python loop appends molecule
`i` and then asserts both O-H distances are < 1.5; an assertion failure
propagates and discards the partially built local list, so observationally the
function raises at the first failing index and otherwise returns the full
grouped list of `n_atoms // 3` molecules. -/
def build_water_molecules (atoms : Atoms) :
    Except MalformedMoleculeError (List WaterMolecule) :=
  let n_waters := atoms.n_atoms / 3
  match (List.range n_waters).find? (fun i => ! decide (moleculeOK atoms i)) with
  | some i => .error (.malformed i)
  | none => .ok (buildList n_waters)

/-- Bonds emitted for one ordered (donor, acceptor) pair: the body of the two
inner levels of `find_hydrogen_bonds` (the O-O distance gate and the per-hydrogen
angle test, both under minimum-image convention). -/
def pairBonds (atoms : Atoms) (donor acceptor : WaterMolecule)
    (distance_cutoff angle_cutoff : ℚ) : List HBond :=
  if atoms.get_distance donor.O acceptor.O true < distance_cutoff then
    donor.H.filterMap fun h =>
      if atoms.get_angle acceptor.O donor.O h true < angle_cutoff then
        some (acceptor.O, donor.O, h)
      else none
  else []

/-- Default distance cutoff of `find_hydrogen_bonds` (3.5 length units). -/
def distance_cutoff_default : ℚ := mkRat 7 2

lemma distance_cutoff_default_eq : distance_cutoff_default = 7 / 2 := by
  norm_num [distance_cutoff_default, Rat.mkRat_eq_div]

/-- Default angle cutoff of `find_hydrogen_bonds` (30 degrees). -/
def angle_cutoff_default : ℚ := 30

/-- Translation of `find_hydrogen_bonds`: outer loop over donors `i`, inner
loop over acceptors `j` (skipping `i == j`), innermost loop over the donor's
hydrogens.  Python enumerates the molecule list; here the loop indices range
over `List.range` and fetch the corresponding element, which enumerates the
same pairs in the same order. -/
def find_hydrogen_bonds (atoms : Atoms) (water_mols : List WaterMolecule)
    (distance_cutoff angle_cutoff : ℚ) : List HBond :=
  (List.range water_mols.length).flatMap fun i =>
    (List.range water_mols.length).flatMap fun j =>
      if i = j then []
      else
        match water_mols[i]?, water_mols[j]? with
        | some donor, some acceptor =>
            pairBonds atoms donor acceptor distance_cutoff angle_cutoff
        | _, _ => []

/-- Translation of `calculate_average_hbonds`: `0` on the empty collection,
otherwise `2 * num_bonds / len(unique_oxygens)` where the unique oxygens are
those of the concatenated acceptor and donor columns (`np.unique` of the
concatenation; only its length is used, so deduplication order is immaterial). -/
def calculate_average_hbonds (hbonds : List HBond) : ℚ :=
  if hbonds = [] then 0
  else
    let unique_oxygens :=
      ((hbonds.map fun b => b.1) ++ (hbonds.map fun b => b.2.1)).dedup
    2 * (hbonds.length : ℚ) / (unique_oxygens.length : ℚ)

/-- Number of bonds in which oxygen `o` appears as the acceptor
(`acceptor_counts[o]` in `analyze_bond_counts`). -/
def acceptorCount (hbonds : List HBond) (o : Nat) : Nat :=
  (hbonds.filter fun b => b.1 == o).length

/-- Number of bonds in which oxygen `o` appears as the donor
(`donor_counts[o]` in `analyze_bond_counts`). -/
def donorCount (hbonds : List HBond) (o : Nat) : Nat :=
  (hbonds.filter fun b => b.2.1 == o).length

/-- The set `all_oxygens` of `analyze_bond_counts`: every oxygen index that
appears in at least one bond, as acceptor or donor.  Python builds it as a
union of dict key sets; a deduplicated list represents the same finite set. -/
def allOxygens (hbonds : List HBond) : List Nat :=
  ((hbonds.map fun b => b.1) ++ (hbonds.map fun b => b.2.1)).dedup

/-- The bond-type label `"A{accepting}D{donating}"`. -/
def bondType (accepting donating : Nat) : String :=
  "A" ++ toString accepting ++ "D" ++ toString donating

/-- Translation of `analyze_bond_counts`.  Dictionaries are rendered as
association lists: `oxygen_bond_counts` maps each participating oxygen to its
(accepting, donating) pair, `type_counts` is the histogram of bond-type labels
over those oxygens, and `percentages` rescales it by `100 / total_oxygens`.
When `hbonds` is empty the label list is empty, so the percentage
comprehension never divides and all three outputs are empty. -/
def analyze_bond_counts (hbonds : List HBond) :
    List (Nat × Nat × Nat) × List (String × Nat) × List (String × ℚ) :=
  let oxygen_bond_counts :=
    (allOxygens hbonds).map fun o => (o, acceptorCount hbonds o, donorCount hbonds o)
  let labels := oxygen_bond_counts.map fun t => bondType t.2.1 t.2.2
  let type_counts := labels.dedup.map fun t => (t, (labels.filter fun s => s == t).length)
  let total_oxygens := oxygen_bond_counts.length
  let percentages :=
    type_counts.map fun tc => (tc.1, ((tc.2 : ℚ) / (total_oxygens : ℚ)) * 100)
  (oxygen_bond_counts, type_counts, percentages)

/-- Result record of the top-level entry point. -/
structure AnalysisResult where
  average_hbonds : ℚ
  oxygen_bond_counts : List (Nat × Nat × Nat)
  type_counts : List (String × Nat)
  percentages : List (String × ℚ)
deriving Repr

/-- Core of the `main` entry point, on an already-loaded configuration
(`ase.io.read` and the `@persist` cache are external I/O collaborators).
Molecule construction runs first; its failure aborts the whole analysis and
no partial result is produced. -/
def main_core (atoms : Atoms) : Except MalformedMoleculeError AnalysisResult := do
  let water_mols ← build_water_molecules atoms
  let hbonds :=
    find_hydrogen_bonds atoms water_mols distance_cutoff_default angle_cutoff_default
  let counts := analyze_bond_counts hbonds
  pure ⟨calculate_average_hbonds hbonds, counts.1, counts.2.1, counts.2.2⟩

/-- Spec-side count of distinct oxygens appearing in bonds, as a finite set:
used to state the statistics contract independently of the dedup list. -/
def specDistinctOxygens (hbonds : List HBond) : Finset Nat :=
  ((hbonds.map fun b => b.1) ++ (hbonds.map fun b => b.2.1)).toFinset

lemma buildList_length (n : Nat) : (buildList n).length = n := by
  simp [buildList]

lemma buildList_get (n i : Nat) (h : i < (buildList n).length) :
    (buildList n).get ⟨i, h⟩ = ⟨3 * i, [3 * i + 1, 3 * i + 2]⟩ := by
  simp [buildList]

lemma buildList_getElemQ {n i : Nat} (hi : i < n) :
    (buildList n)[i]? = some ⟨3 * i, [3 * i + 1, 3 * i + 2]⟩ := by
  simp [buildList, hi]

lemma mem_pairBonds {atoms : Atoms} {donor acceptor : WaterMolecule}
    {dc ac : ℚ} {b : HBond} :
    b ∈ pairBonds atoms donor acceptor dc ac ↔
      atoms.get_distance donor.O acceptor.O true < dc ∧
      ∃ h ∈ donor.H, atoms.get_angle acceptor.O donor.O h true < ac ∧
        b = (acceptor.O, donor.O, h) := by
  unfold pairBonds
  by_cases hd : atoms.get_distance donor.O acceptor.O true < dc
  · rw [if_pos hd]
    simp only [List.mem_filterMap, hd, true_and]
    constructor
    · rintro ⟨h, hh, hb⟩
      by_cases ha : atoms.get_angle acceptor.O donor.O h true < ac
      · rw [if_pos ha] at hb
        exact ⟨h, hh, ha, (Option.some.inj hb).symm⟩
      · rw [if_neg ha] at hb
        cases hb
    · rintro ⟨h, hh, ha, rfl⟩
      exact ⟨h, hh, by rw [if_pos ha]⟩
  · rw [if_neg hd]
    simp [hd]

lemma mem_find_hydrogen_bonds {atoms : Atoms} {mols : List WaterMolecule}
    {dc ac : ℚ} {b : HBond} :
    b ∈ find_hydrogen_bonds atoms mols dc ac ↔
      ∃ i j, ∃ (hi : i < mols.length) (hj : j < mols.length), i ≠ j ∧
        b ∈ pairBonds atoms (mols.get ⟨i, hi⟩) (mols.get ⟨j, hj⟩) dc ac := by
  unfold find_hydrogen_bonds
  simp only [List.mem_flatMap, List.mem_range]
  constructor
  · rintro ⟨i, hi, j, hj, hb⟩
    by_cases hij : i = j
    · rw [if_pos hij] at hb
      cases hb
    · rw [if_neg hij, List.getElem?_eq_getElem hi, List.getElem?_eq_getElem hj] at hb
      exact ⟨i, j, hi, hj, hij, by simpa using hb⟩
  · rintro ⟨i, j, hi, hj, hij, hb⟩
    refine ⟨i, hi, j, hj, ?_⟩
    rw [if_neg hij, List.getElem?_eq_getElem hi, List.getElem?_eq_getElem hj]
    simpa using hb

lemma mem_find_buildList {atoms : Atoms} {n : Nat} {dc ac : ℚ} {b : HBond} :
    b ∈ find_hydrogen_bonds atoms (buildList n) dc ac ↔
      ∃ i j, i < n ∧ j < n ∧ i ≠ j ∧
        atoms.get_distance (3 * i) (3 * j) true < dc ∧
        ∃ h, (h = 3 * i + 1 ∨ h = 3 * i + 2) ∧
          atoms.get_angle (3 * j) (3 * i) h true < ac ∧
          b = (3 * j, 3 * i, h) := by
  rw [mem_find_hydrogen_bonds]
  constructor
  · rintro ⟨i, j, hi, hj, hij, hb⟩
    rw [buildList_get, buildList_get] at hb
    rw [mem_pairBonds] at hb
    obtain ⟨hdist, h, hh, hang, hbe⟩ := hb
    have hi' : i < n := by simpa [buildList_length] using hi
    have hj' : j < n := by simpa [buildList_length] using hj
    refine ⟨i, j, hi', hj', hij, hdist, h, ?_, hang, hbe⟩
    simpa using hh
  · rintro ⟨i, j, hi, hj, hij, hdist, h, hh, hang, hbe⟩
    have hi' : i < (buildList n).length := by simpa [buildList_length] using hi
    have hj' : j < (buildList n).length := by simpa [buildList_length] using hj
    refine ⟨i, j, hi', hj', hij, ?_⟩
    rw [buildList_get, buildList_get, mem_pairBonds]
    exact ⟨hdist, h, by simpa using hh, hang, hbe⟩

/-- C6: for the empty hydrogen-bond collection, `analyze_bond_counts` returns
three empty mappings and propagates no numeric error: the percentage
comprehension ranges over the empty `type_counts`, so no division is ever
performed. -/
theorem analyze_bond_counts_empty : analyze_bond_counts [] = ([], [], []) := by
  rfl

/-- C8: a single isolated water molecule (no neighbors) yields an empty bond
collection, an `average_hbonds` of `0`, and empty classifier outputs, for any
configuration, molecule and cutoffs. -/
theorem single_molecule_empty_outputs (atoms : Atoms) (m : WaterMolecule)
    (dc ac : ℚ) :
    find_hydrogen_bonds atoms [m] dc ac = [] ∧
    calculate_average_hbonds (find_hydrogen_bonds atoms [m] dc ac) = 0 ∧
    analyze_bond_counts (find_hydrogen_bonds atoms [m] dc ac) = ([], [], []) := by
  have hfind : find_hydrogen_bonds atoms [m] dc ac = [] := rfl
  refine ⟨hfind, ?_, ?_⟩ <;> rw [hfind] <;> rfl

/-- C1: for distinct molecules `i` (donor) and `j` (acceptor) and a hydrogen
`hAtom` of the donor, the bond `(acceptor_O, donor_O, hAtom)` is emitted
exactly when the O-O minimum-image distance is strictly below the distance
cutoff and the acceptor_O-donor_O-hAtom angle is strictly below the angle
cutoff; moreover the self-pair of molecule `i` never emits a bond. -/
theorem find_hydrogen_bonds_criterion (atoms : Atoms) (n i j hAtom : Nat)
    (dc ac : ℚ) (hi : i < n) (hj : j < n) (hij : i ≠ j)
    (hh : hAtom = 3 * i + 1 ∨ hAtom = 3 * i + 2) :
    ((3 * j, 3 * i, hAtom) ∈ find_hydrogen_bonds atoms (buildList n) dc ac ↔
      atoms.get_distance (3 * i) (3 * j) true < dc ∧
      atoms.get_angle (3 * j) (3 * i) hAtom true < ac) ∧
    ∀ h2, (3 * i, 3 * i, h2) ∉ find_hydrogen_bonds atoms (buildList n) dc ac := by
  constructor
  · rw [mem_find_buildList]
    constructor
    · rintro ⟨i', j', hi', hj', hij', hdist, h, hh', hang, hbe⟩
      have he : 3 * j = 3 * j' ∧ 3 * i = 3 * i' ∧ hAtom = h := by
        simpa [Prod.ext_iff] using hbe
      obtain ⟨e1, e2, e3⟩ := he
      have ej : j' = j := by omega
      have ei : i' = i := by omega
      subst ej; subst ei
      rw [e3]
      exact ⟨hdist, hang⟩
    · rintro ⟨hdist, hang⟩
      exact ⟨i, j, hi, hj, hij, hdist, hAtom, hh, hang, rfl⟩
  · intro h2 hmem
    rw [mem_find_buildList] at hmem
    obtain ⟨i', j', _, _, hij', _, h, _, _, hbe⟩ := hmem
    have he : 3 * i = 3 * j' ∧ 3 * i = 3 * i' ∧ h2 = h := by
      simpa [Prod.ext_iff] using hbe
    omega

/-- Demonstration configuration: every pairwise distance is 3 and every angle
is 10 degrees, so every ordered pair of distinct molecules bonds via both
hydrogens under the default cutoffs. -/
def demoAtoms : Atoms := ⟨6, fun _ _ _ => 3, fun _ _ _ _ => 10⟩

theorem find_hydrogen_bonds_criterion_witness :
    (3 * 1, 3 * 0, 1) ∈
      find_hydrogen_bonds demoAtoms (buildList 2)
        distance_cutoff_default angle_cutoff_default :=
  ((find_hydrogen_bonds_criterion demoAtoms 2 0 1 1
      distance_cutoff_default angle_cutoff_default
      (by decide) (by decide) (by decide) (Or.inl rfl)).1).mpr
    ⟨by decide, by decide⟩

/-- C9: every bond emitted over a built molecule list is well-formed: the
acceptor and donor oxygen indices are multiples of 3, they belong to distinct
molecules, and the hydrogen is one of the donor's two hydrogens. -/
theorem bonds_well_formed (atoms : Atoms) (n : Nat) (dc ac : ℚ) (b : HBond)
    (hb : b ∈ find_hydrogen_bonds atoms (buildList n) dc ac) :
    3 ∣ b.1 ∧ 3 ∣ b.2.1 ∧ b.1 ≠ b.2.1 ∧
      (b.2.2 = b.2.1 + 1 ∨ b.2.2 = b.2.1 + 2) := by
  rw [mem_find_buildList] at hb
  obtain ⟨i, j, hi, hj, hij, hdist, h, hh, hang, rfl⟩ := hb
  dsimp only
  refine ⟨dvd_mul_right 3 j, dvd_mul_right 3 i, by omega, by omega⟩

theorem bonds_well_formed_witness :
    3 ∣ ((3, 0, 1) : HBond).1 ∧ 3 ∣ ((3, 0, 1) : HBond).2.1 ∧
      ((3, 0, 1) : HBond).1 ≠ ((3, 0, 1) : HBond).2.1 ∧
      (((3, 0, 1) : HBond).2.2 = ((3, 0, 1) : HBond).2.1 + 1 ∨
       ((3, 0, 1) : HBond).2.2 = ((3, 0, 1) : HBond).2.1 + 2) :=
  bonds_well_formed demoAtoms 2 distance_cutoff_default angle_cutoff_default
    (3, 0, 1)
    (mem_find_buildList.mpr
      ⟨0, 1, by decide, by decide, by decide,
        by decide, 1, Or.inl rfl, by decide, rfl⟩)

/-- C2: on a non-empty bond collection `calculate_average_hbonds` returns
exactly `2 * (number of bonds) / (number of distinct oxygens appearing as
acceptor or donor)`, and on the empty collection it returns `0` rather than
dividing. -/
theorem calculate_average_hbonds_spec :
    (∀ hbonds : List HBond, hbonds ≠ [] →
      calculate_average_hbonds hbonds =
        2 * (hbonds.length : ℚ) / ((specDistinctOxygens hbonds).card : ℚ)) ∧
    calculate_average_hbonds [] = 0 := by
  refine ⟨fun hbonds hne => ?_, rfl⟩
  simp only [calculate_average_hbonds, if_neg hne, specDistinctOxygens,
    List.card_toFinset]

theorem calculate_average_hbonds_spec_witness :
    calculate_average_hbonds [(0, 3, 4)] =
      2 * (([(0, 3, 4)] : List HBond).length : ℚ) /
        ((specDistinctOxygens [(0, 3, 4)]).card : ℚ) :=
  calculate_average_hbonds_spec.1 [(0, 3, 4)] (by decide)

/-- C10: on any non-empty bond collection the average is at least 1, because
each bond contributes at most two distinct oxygen indices, so the distinct
oxygen count never exceeds twice the bond count. -/
theorem average_hbonds_ge_one (hbonds : List HBond) (hne : hbonds ≠ []) :
    1 ≤ calculate_average_hbonds hbonds := by
  simp only [calculate_average_hbonds, if_neg hne]
  set l := (hbonds.map fun b => b.1) ++ (hbonds.map fun b => b.2.1) with hl
  have hlen : l.length = 2 * hbonds.length := by
    simp [hl, two_mul]
  have hdl : l.dedup.length ≤ 2 * hbonds.length :=
    hlen ▸ (List.dedup_sublist l).length_le
  have hlne : l ≠ [] := by
    intro hnil
    rcases List.append_eq_nil.mp (hl ▸ hnil) with ⟨h1, -⟩
    exact hne (List.map_eq_nil_iff.mp h1)
  have hpos : 0 < l.dedup.length :=
    List.length_pos.mpr fun hdd => hlne ((List.dedup_eq_nil l).mp hdd)
  have hpos' : (0 : ℚ) < (l.dedup.length : ℚ) := by exact_mod_cast hpos
  rw [one_le_div hpos']
  have h2 : (l.dedup.length : ℚ) ≤ (2 * hbonds.length : ℕ) := by exact_mod_cast hdl
  calc (l.dedup.length : ℚ) ≤ ((2 * hbonds.length : ℕ) : ℚ) := h2
    _ = 2 * (hbonds.length : ℚ) := by push_cast; ring

theorem average_hbonds_ge_one_witness :
    1 ≤ calculate_average_hbonds [(0, 3, 4)] :=
  average_hbonds_ge_one [(0, 3, 4)] (by decide)

lemma build_water_molecules_ok {atoms : Atoms}
    (hok : ∀ i < atoms.n_atoms / 3, moleculeOK atoms i) :
    build_water_molecules atoms = .ok (buildList (atoms.n_atoms / 3)) := by
  have hfind : (List.range (atoms.n_atoms / 3)).find?
      (fun i => ! decide (moleculeOK atoms i)) = none := by
    rw [List.find?_eq_none]
    intro x hx
    simp [hok x (List.mem_range.mp hx)]
  simp only [build_water_molecules, hfind]

lemma build_water_molecules_error {atoms : Atoms}
    (hbad : ∃ i < atoms.n_atoms / 3, ¬ moleculeOK atoms i) :
    ∃ e, build_water_molecules atoms = .error e := by
  have hne : (List.range (atoms.n_atoms / 3)).find?
      (fun i => ! decide (moleculeOK atoms i)) ≠ none := by
    intro hnone
    rw [List.find?_eq_none] at hnone
    obtain ⟨i, hi, hbadi⟩ := hbad
    exact hbadi (by simpa using hnone i (List.mem_range.mpr hi))
  obtain ⟨j, hj⟩ := Option.ne_none_iff_exists.mp hne
  exact ⟨.malformed j, by simp only [build_water_molecules, hj.symm]⟩

/-- C3: on an input whose atom count is a multiple of 3, if some consecutive
triplet fails the O-H sanity bound then molecule construction raises and the
whole analysis aborts with no result; when every triplet satisfies both O-H
distance bounds, construction succeeds. -/
theorem malformed_molecule_aborts (atoms : Atoms)
    (_hN : atoms.n_atoms % 3 = 0) :
    ((∃ i < atoms.n_atoms / 3, ¬ moleculeOK atoms i) →
      (∃ e, build_water_molecules atoms = .error e) ∧
      ∃ e, main_core atoms = .error e) ∧
    ((∀ i < atoms.n_atoms / 3, moleculeOK atoms i) →
      build_water_molecules atoms = .ok (buildList (atoms.n_atoms / 3))) := by
  refine ⟨fun hbad => ?_, fun hok => build_water_molecules_ok hok⟩
  obtain ⟨e, he⟩ := build_water_molecules_error hbad
  refine ⟨⟨e, he⟩, e, ?_⟩
  simp only [main_core, he]
  rfl

/-- Configuration of one O,H,H triplet whose O-H distances are all 2, above
the 1.5 sanity bound. -/
def badAtoms : Atoms := ⟨3, fun _ _ _ => 2, fun _ _ _ _ => 10⟩

theorem malformed_molecule_aborts_witness :
    (∃ e, build_water_molecules badAtoms = .error e) ∧
    ∃ e, main_core badAtoms = .error e :=
  (malformed_molecule_aborts badAtoms (by decide)).1
    ⟨0, by decide, by decide⟩

/-- C4: when every triplet passes the sanity check, `build_water_molecules`
returns exactly `floor(N/3)` molecules, molecule `i` owning atom indices
`{3i, 3i+1, 3i+2}` as `{O, H, H}`; every atom index owned by any molecule is
below `3 * floor(N/3)`, so trailing leftover atoms appear in no molecule. -/
theorem build_water_molecules_grouping (atoms : Atoms)
    (hok : ∀ i < atoms.n_atoms / 3, moleculeOK atoms i) :
    build_water_molecules atoms = .ok (buildList (atoms.n_atoms / 3)) ∧
    (buildList (atoms.n_atoms / 3)).length = atoms.n_atoms / 3 ∧
    (∀ i < atoms.n_atoms / 3,
      (buildList (atoms.n_atoms / 3))[i]? =
        some ⟨3 * i, [3 * i + 1, 3 * i + 2]⟩) ∧
    ∀ mol ∈ buildList (atoms.n_atoms / 3),
      mol.O < 3 * (atoms.n_atoms / 3) ∧
        ∀ h ∈ mol.H, h < 3 * (atoms.n_atoms / 3) := by
  refine ⟨build_water_molecules_ok hok, buildList_length _,
    fun i hi => buildList_getElemQ hi, fun mol hm => ?_⟩
  simp only [buildList, List.mem_map, List.mem_range] at hm
  obtain ⟨i, hi, rfl⟩ := hm
  refine ⟨by dsimp; omega, fun h hh => ?_⟩
  simp only [List.mem_cons, List.not_mem_nil, or_false] at hh
  omega

/-- Configuration of two O,H,H triplets whose O-H distances are all 1, inside
the sanity bound. -/
def goodAtoms : Atoms := ⟨6, fun _ _ _ => 1, fun _ _ _ _ => 10⟩

theorem build_water_molecules_grouping_witness :
    build_water_molecules goodAtoms = .ok (buildList (goodAtoms.n_atoms / 3)) :=
  (build_water_molecules_grouping goodAtoms (fun _ _ =>
    ⟨(by decide : (1 : ℚ) < mkRat 3 2), (by decide : (1 : ℚ) < mkRat 3 2)⟩)).1

lemma sum_label_histogram (labels : List String) :
    ((labels.dedup.map fun t => (t, (labels.filter fun s => s == t).length)).map
      fun tc => tc.2).sum = labels.length := by
  rw [List.map_map]
  have hc : ((fun tc : String × Nat => tc.2) ∘
      fun t => (t, (labels.filter fun s => s == t).length)) =
      fun t => labels.count t := by
    funext t
    simp [List.count_eq_countP, List.countP_eq_length_filter]
  rw [hc, List.sum_map_count_dedup_eq_length]

lemma sum_map_percent (L : List (String × Nat)) (T : ℚ) :
    (L.map fun tc => ((tc.2 : ℚ) / T) * 100).sum =
      (((L.map fun tc => tc.2).sum : ℕ) : ℚ) / T * 100 := by
  induction L with
  | nil => simp
  | cons a L ih =>
    simp only [List.map_cons, List.sum_cons, ih, Nat.cast_add]
    ring

/-- C5: the values of `type_counts` sum to the number of keys of
`oxygen_bond_counts` (every participating oxygen falls in exactly one
role-count bucket), and whenever `oxygen_bond_counts` is non-empty the values
of `percentages` sum to exactly 100. -/
theorem analyze_bond_counts_consistency (hbonds : List HBond) :
    (((analyze_bond_counts hbonds).2.1.map fun tc => tc.2).sum =
      (analyze_bond_counts hbonds).1.length) ∧
    ((analyze_bond_counts hbonds).1 ≠ [] →
      ((analyze_bond_counts hbonds).2.2.map fun tc => tc.2).sum = 100) := by
  simp only [analyze_bond_counts]
  refine ⟨?_, ?_⟩
  · rw [sum_label_histogram, List.length_map]
  · intro hne
    rw [List.map_map]
    have hc : ((fun tc : String × ℚ => tc.2) ∘
        fun tc : String × Nat =>
          (tc.1, ((tc.2 : ℚ) /
            (((allOxygens hbonds).map fun o =>
              (o, acceptorCount hbonds o, donorCount hbonds o)).length : ℚ)) * 100)) =
        fun tc : String × Nat =>
          ((tc.2 : ℚ) /
            (((allOxygens hbonds).map fun o =>
              (o, acceptorCount hbonds o, donorCount hbonds o)).length : ℚ)) * 100 :=
      rfl
    rw [hc, sum_map_percent, sum_label_histogram]
    simp only [List.length_map]
    have hpos : 0 < (allOxygens hbonds).length :=
      List.length_pos.mpr fun hniln => hne (by simp [hniln])
    have hTne : (((allOxygens hbonds).length : ℕ) : ℚ) ≠ 0 := by
      exact_mod_cast hpos.ne.symm
    rw [div_self hTne, one_mul]

theorem analyze_bond_counts_consistency_witness :
    (((analyze_bond_counts [(0, 3, 4)]).2.1.map fun tc => tc.2).sum =
      (analyze_bond_counts [(0, 3, 4)]).1.length) ∧
    ((analyze_bond_counts [(0, 3, 4)]).2.2.map fun tc => tc.2).sum = 100 :=
  ⟨(analyze_bond_counts_consistency [(0, 3, 4)]).1,
   (analyze_bond_counts_consistency [(0, 3, 4)]).2 (by decide)⟩

/-- Demonstration configuration in which molecule 0 donates toward molecule 1
but not conversely: all distances are 3, while angles at a donor oxygen other
than atom 0 are 170 degrees. -/
def demoAtomsAsym : Atoms :=
  ⟨6, fun _ _ _ => 3, fun _ d _ _ => if d = 0 then 10 else 170⟩

/-- C7: the bond list follows iteration order, the lexicographic enumeration
of (donor index, acceptor index) pairs with the donor's hydrogens innermost
(stated against the canonical lexicographically ordered pair enumeration
`List.product`); and the detector does not symmetrize or deduplicate: there
is a configuration emitting a bond `(A, D, H)` such that no bond
`(D, A, H2)` is emitted for any hydrogen `H2`. -/
theorem find_hydrogen_bonds_order :
    (∀ (atoms : Atoms) (mols : List WaterMolecule) (dc ac : ℚ),
      find_hydrogen_bonds atoms mols dc ac =
        ((List.range mols.length).product (List.range mols.length)).flatMap
          fun p =>
            if p.1 = p.2 then []
            else
              match mols[p.1]?, mols[p.2]? with
              | some donor, some acceptor => pairBonds atoms donor acceptor dc ac
              | _, _ => []) ∧
    ∃ b ∈ find_hydrogen_bonds demoAtomsAsym (buildList 2)
        distance_cutoff_default angle_cutoff_default,
      ∀ h2, (b.2.1, b.1, h2) ∉ find_hydrogen_bonds demoAtomsAsym (buildList 2)
        distance_cutoff_default angle_cutoff_default := by
  constructor
  · intro atoms mols dc ac
    unfold find_hydrogen_bonds
    rw [List.product, List.flatMap_assoc]
    refine List.flatMap_congr ?_
    intro i _
    rw [List.flatMap_map]
  · have hout : find_hydrogen_bonds demoAtomsAsym (buildList 2)
        distance_cutoff_default angle_cutoff_default = [(3, 0, 1), (3, 0, 2)] := by
      decide
    refine ⟨(3, 0, 1), by rw [hout]; exact List.mem_cons_self _ _, fun h2 hmem => ?_⟩
    rw [hout] at hmem
    simp only [List.mem_cons, List.not_mem_nil, or_false, Prod.mk.injEq] at hmem
    omega
